import Mathlib

/-!
Verification of the detection post-processing utilities and the
convolution parameter-counting cell of the CarND object-detection lab
notebook.

The notebook code being modelled:

* `filter_boxes(min_score, boxes, scores, classes)` collects the indices
  `i` in `range(len(classes))` with `scores[i] >= min_score` and returns
  the fancy-indexed triple `(boxes[idxs], scores[idxs], classes[idxs])`.
* `to_image_coords(boxes, height, width)` allocates `zeros_like(boxes)`
  and assigns column 0 and 2 scaled by `height`, column 1 and 3 scaled
  by `width`.
* `draw_boxes(image, boxes, classes, thickness)` unpacks each box as
  `bot, left, top, right`, computes `class_id = int(classes[i])`, looks
  up `COLOR_LIST[class_id]` and draws the closed polyline
  `[(left, top), (left, bot), (right, bot), (right, top), (left, top)]`.
* The parameter-counting cell builds one vanilla block and one mobilenet
  block and sums the sizes of the trainable variables each creates.

Machine floats are modelled by `ℚ`, numpy arrays by `List`, and a Python
exception (IndexError from an out-of-range subscript) by `Option.none`.
-/

/-- A detection box as the 4-tuple (component 0, 1, 2, 3); the detector
emits the components in the order (top, left, bottom, right), each
normalized to [0, 1]. -/
abbrev Box : Type := ℚ × ℚ × ℚ × ℚ

/-- Python list subscription `xs[k]` with an integer index: a nonnegative
index reads from the front, a negative index `k` with `-len <= k` reads
`xs[len + k]`, and anything else is an IndexError (`none`). -/
def pyGet {α : Type} (xs : List α) (k : ℤ) : Option α :=
  if 0 ≤ k then xs[k.toNat]?
  else if 0 ≤ k + xs.length then xs[(k + xs.length).toNat]? else none

/-- Python `int()` applied to a real number: truncation toward zero. -/
def pyInt (q : ℚ) : ℤ :=
  if 0 ≤ q then ⌊q⌋ else ⌈q⌉

/-- The index-collecting loop of `filter_boxes`: for each `i` in the given
index list (the code passes `range(n)` with `n = len(classes)`), read
`scores[i]` (an out-of-range read is an IndexError) and keep `i` when
`scores[i] >= min_score`, preserving order. -/
def loopIdxs (min_score : ℚ) (scores : List ℚ) : List ℕ → Option (List ℕ)
  | [] => some []
  | i :: rest => do
    let s ← scores[i]?
    let tail ← loopIdxs min_score scores rest
    if min_score ≤ s then return (i :: tail) else return tail

/-- Numpy fancy indexing `xs[idxs, ...]`: a new array holding `xs[i]` for
each listed index in order; any out-of-range index is an IndexError. -/
def fancyIndex {α : Type} (xs : List α) : List ℕ → Option (List α)
  | [] => some []
  | i :: rest => do
    let x ← xs[i]?
    let tail ← fancyIndex xs rest
    return (x :: tail)

/-- The notebook function `filter_boxes`: `n = len(classes)`; collect the
indices with `scores[i] >= min_score`; return the fancy-indexed
`(boxes[idxs], scores[idxs], classes[idxs])`.  It performs no validation
of `min_score` or of the three lengths. -/
def filter_boxes (min_score : ℚ) (boxes : List Box) (scores classes : List ℚ) :
    Option (List Box × List ℚ × List ℚ) := do
  let n := classes.length
  let idxs ← loopIdxs min_score scores (List.range n)
  let filtered_boxes ← fancyIndex boxes idxs
  let filtered_scores ← fancyIndex scores idxs
  let filtered_classes ← fancyIndex classes idxs
  return (filtered_boxes, filtered_scores, filtered_classes)

/-- Reference form of the index-collecting loop on a full range: the list
of positions of `scores` whose entry meets the threshold, in order. -/
def posIdxs (t : ℚ) : List ℚ → List ℕ
  | [] => []
  | s :: ss =>
    if t ≤ s then 0 :: (posIdxs t ss).map Nat.succ
    else (posIdxs t ss).map Nat.succ

/-- Reference form of the aligned filter: keep the element of `xs` at each
position where the parallel list `ss` of scores meets the threshold. -/
def filterAligned {α : Type} (t : ℚ) : List ℚ → List α → List α
  | s :: ss, x :: xs =>
    if t ≤ s then x :: filterAligned t ss xs else filterAligned t ss xs
  | _, _ => []

/-- Zip three parallel lists into a list of detections (box, score, class). -/
def zip3 {α β γ : Type} : List α → List β → List γ → List (α × β × γ)
  | a :: as, b :: bs, c :: cs => (a, b, c) :: zip3 as bs cs
  | _, _, _ => []

/-- Numpy `zeros_like` on an array of boxes. -/
def zeros_like (boxes : List Box) : List Box :=
  boxes.map fun _ => ((0 : ℚ), (0 : ℚ), (0 : ℚ), (0 : ℚ))

/-- Columnwise assignment `dst[:, 0] = src[:, 0] * m`. -/
def setCol0 (dst src : List Box) (m : ℚ) : List Box :=
  List.zipWith (fun d s => (s.1 * m, d.2.1, d.2.2.1, d.2.2.2)) dst src

/-- Columnwise assignment `dst[:, 1] = src[:, 1] * m`. -/
def setCol1 (dst src : List Box) (m : ℚ) : List Box :=
  List.zipWith (fun d s => (d.1, s.2.1 * m, d.2.2.1, d.2.2.2)) dst src

/-- Columnwise assignment `dst[:, 2] = src[:, 2] * m`. -/
def setCol2 (dst src : List Box) (m : ℚ) : List Box :=
  List.zipWith (fun d s => (d.1, d.2.1, s.2.2.1 * m, d.2.2.2)) dst src

/-- Columnwise assignment `dst[:, 3] = src[:, 3] * m`. -/
def setCol3 (dst src : List Box) (m : ℚ) : List Box :=
  List.zipWith (fun d s => (d.1, d.2.1, d.2.2.1, s.2.2.2 * m)) dst src

/-- The notebook function `to_image_coords`: start from `zeros_like(boxes)`
and assign column 0 as `boxes[:, 0] * height`, column 1 as
`boxes[:, 1] * width`, column 2 as `boxes[:, 2] * height`, column 3 as
`boxes[:, 3] * width`. -/
def to_image_coords (boxes : List Box) (height width : ℚ) : List Box :=
  let box_coords := zeros_like boxes
  let box_coords := setCol0 box_coords boxes height
  let box_coords := setCol1 box_coords boxes width
  let box_coords := setCol2 box_coords boxes height
  setCol3 box_coords boxes width

/-- Per-box form of the scaling performed by `to_image_coords`. -/
def scaleBox (height width : ℚ) (b : Box) : Box :=
  (b.1 * height, b.2.1 * width, b.2.2.1 * height, b.2.2.2 * width)

/-- All four components of a box lie in [0, 1]. -/
def boxInRange (b : Box) : Prop :=
  0 ≤ b.1 ∧ b.1 ≤ 1 ∧ 0 ≤ b.2.1 ∧ b.2.1 ≤ 1 ∧
  0 ≤ b.2.2.1 ∧ b.2.2.1 ≤ 1 ∧ 0 ≤ b.2.2.2 ∧ b.2.2.2 ≤ 1

instance (b : Box) : Decidable (boxInRange b) := by
  unfold boxInRange
  infer_instance

/-- The polyline drawn by `draw_boxes` for one box.  The code unpacks
`bot, left, top, right = boxes[i, ...]` (so `bot` is component 0 and
`top` is component 2) and draws
`[(left, top), (left, bot), (right, bot), (right, top), (left, top)]`. -/
def draw_box_points (box : Box) : List (ℚ × ℚ) :=
  [(box.2.1, box.2.2.1), (box.2.1, box.1), (box.2.2.2, box.1),
   (box.2.2.2, box.2.2.1), (box.2.1, box.2.2.1)]

/-- The color lookup performed by `draw_boxes` for detection `i`:
`class_id = int(classes[i])` followed by `COLOR_LIST[class_id]`, a plain
Python list subscription with no modulo wrap.  Palette entries are
abstracted as naturals. -/
def draw_box_color (palette : List ℕ) (classes : List ℚ) (i : ℕ) : Option ℕ := do
  let c ← classes[i]?
  pyGet palette (pyInt c)

/-- Modelled from the spec: the color selection the spec prescribes for
`render_boxes`, namely `palette[class_id % len(palette)]` with an explicit
modulo wrap.  This definition follows the words of the spec and is only
used to compare against the color lookup the notebook actually performs. -/
def spec_color_select (palette : List ℕ) (class_id : ℕ) : Option ℕ :=
  palette[class_id % palette.length]?

/-- Sizes of the trainable variables created by `vanilla_conv_block` in
creation order: the `tf.layers.conv2d` kernel
(`kernel_size * kernel_size * input_channels * output_channels`), the
`tf.layers.conv2d` bias (`output_channels`; the layer is called without
`use_bias=False`, and the default adds a bias), and the
`tf.layers.batch_normalization` trainable gamma and beta
(`output_channels` each; the moving statistics are not trainable). -/
def vanilla_conv_block_params (kernel_size input_channels output_channels : ℕ) : List ℕ :=
  [kernel_size * kernel_size * input_channels * output_channels,
   output_channels,
   output_channels,
   output_channels]

/-- Sizes of the trainable variables created by `mobilenet_conv_block` in
creation order: the explicit depthwise filter
`tf.Variable(truncated_normal((kernel_size, kernel_size, input_channel, 1)))`,
gamma and beta of the first `tf.layers.batch_normalization`
(`input_channels` each), the pointwise `tf.layers.conv2d` kernel
(`1 * 1 * input_channels * output_channels`), its default bias
(`output_channels`), and gamma and beta of the second batch
normalization (`output_channels` each). -/
def mobilenet_conv_block_params (kernel_size input_channels output_channels : ℕ) : List ℕ :=
  [kernel_size * kernel_size * input_channels * 1,
   input_channels,
   input_channels,
   1 * 1 * input_channels * output_channels,
   output_channels,
   output_channels,
   output_channels]

/-- The total the counting cell prints for the vanilla block. -/
def total_vanilla_params (kernel_size input_channels output_channels : ℕ) : ℕ :=
  (vanilla_conv_block_params kernel_size input_channels output_channels).sum

/-- The total the counting cell prints for the mobilenet block. -/
def total_mobile_params (kernel_size input_channels output_channels : ℕ) : ℕ :=
  (mobilenet_conv_block_params kernel_size input_channels output_channels).sum

/-- The parameter reduction the cell prints:
`total_vanilla_params / total_mobile_params` as an exact rational. -/
def param_reduction (kernel_size input_channels output_channels : ℕ) : ℚ :=
  (total_vanilla_params kernel_size input_channels output_channels : ℚ) /
    (total_mobile_params kernel_size input_channels output_channels : ℚ)

/-! Helper lemmas characterizing the index-based `filter_boxes` as the
aligned stable filter `filterAligned`. -/

theorem loopIdxs_map_succ (t s : ℚ) (ss : List ℚ) (is : List ℕ) :
    loopIdxs t (s :: ss) (is.map Nat.succ) =
      (loopIdxs t ss is).map (List.map Nat.succ) := by
  induction is with
  | nil => simp [loopIdxs]
  | cons i rest ih =>
    simp only [List.map_cons, loopIdxs, List.getElem?_cons_succ, ih]
    cases hx : ss[i]? with
    | none => rfl
    | some x =>
      cases hres : loopIdxs t ss rest with
      | none => rfl
      | some tail => by_cases hts : t ≤ x <;> simp [hts]

theorem loopIdxs_range (t : ℚ) (ss : List ℚ) :
    loopIdxs t ss (List.range ss.length) = some (posIdxs t ss) := by
  induction ss with
  | nil => simp [loopIdxs, posIdxs]
  | cons s ss ih =>
    rw [List.length_cons, List.range_succ_eq_map]
    simp only [loopIdxs, List.getElem?_cons_zero, loopIdxs_map_succ, ih,
      Option.map_some, Option.some_bind, posIdxs]
    by_cases hts : t ≤ s <;> simp [hts]

theorem fancyIndex_map_succ {α : Type} (x : α) (xs : List α) (is : List ℕ) :
    fancyIndex (x :: xs) (is.map Nat.succ) = fancyIndex xs is := by
  induction is with
  | nil => rfl
  | cons i rest ih =>
    simp only [List.map_cons, fancyIndex, List.getElem?_cons_succ, ih]

theorem fancyIndex_posIdxs {α : Type} (t : ℚ) (ss : List ℚ) (xs : List α)
    (h : xs.length = ss.length) :
    fancyIndex xs (posIdxs t ss) = some (filterAligned t ss xs) := by
  induction ss generalizing xs with
  | nil =>
    rw [List.length_eq_zero.mp h]
    rfl
  | cons s ss ih =>
    match xs, h with
    | x :: xs, h =>
      have hlen : xs.length = ss.length := by
        simpa using h
      by_cases hts : t ≤ s
      · simp [posIdxs, if_pos hts, fancyIndex, fancyIndex_map_succ,
          ih xs hlen, filterAligned]
      · simp [posIdxs, if_neg hts, fancyIndex_map_succ, ih xs hlen,
          filterAligned]

theorem filter_boxes_eq (t : ℚ) (bs : List Box) (ss cs : List ℚ)
    (hb : bs.length = ss.length) (hc : cs.length = ss.length) :
    filter_boxes t bs ss cs =
      some (filterAligned t ss bs, filterAligned t ss ss, filterAligned t ss cs) := by
  simp [filter_boxes, hc, loopIdxs_range,
    fancyIndex_posIdxs t ss bs hb, fancyIndex_posIdxs t ss ss rfl,
    fancyIndex_posIdxs t ss cs hc]

theorem zip3_filterAligned (t : ℚ) (ss cs : List ℚ) (bs : List Box)
    (hb : bs.length = ss.length) (hc : cs.length = ss.length) :
    zip3 (filterAligned t ss bs) (filterAligned t ss ss) (filterAligned t ss cs) =
      (zip3 bs ss cs).filter (fun d => decide (t ≤ d.2.1)) := by
  induction ss generalizing bs cs with
  | nil =>
    rw [List.length_eq_zero.mp hb, List.length_eq_zero.mp hc]
    rfl
  | cons s ss ih =>
    match bs, cs, hb, hc with
    | b :: bs, c :: cs, hb, hc =>
      have hb2 : bs.length = ss.length := by simpa using hb
      have hc2 : cs.length = ss.length := by simpa using hc
      by_cases hts : t ≤ s
      · simp [filterAligned, hts, zip3, List.filter_cons, ih cs bs hb2 hc2]
      · simp [filterAligned, hts, zip3, List.filter_cons, ih cs bs hb2 hc2]

theorem filterAligned_length_le {α : Type} (t : ℚ) (ss : List ℚ) (xs : List α)
    (h : xs.length = ss.length) :
    (filterAligned t ss xs).length ≤ xs.length := by
  induction ss generalizing xs with
  | nil =>
    rw [List.length_eq_zero.mp h]
    exact Nat.le_refl _
  | cons s ss ih =>
    match xs, h with
    | x :: xs, h =>
      have h2 : xs.length = ss.length := by simpa using h
      by_cases hts : t ≤ s
      · simpa [filterAligned, if_pos hts] using ih xs h2
      · simp only [filterAligned, if_neg hts, List.length_cons]
        exact Nat.le_succ_of_le (ih xs h2)

theorem filterAligned_length_eq {α β : Type} (t : ℚ) (ss : List ℚ)
    (xs : List α) (ys : List β) (hx : xs.length = ss.length)
    (hy : ys.length = ss.length) :
    (filterAligned t ss xs).length = (filterAligned t ss ys).length := by
  induction ss generalizing xs ys with
  | nil =>
    rw [List.length_eq_zero.mp hx, List.length_eq_zero.mp hy]
    rfl
  | cons s ss ih =>
    match xs, ys, hx, hy with
    | x :: xs, y :: ys, hx, hy =>
      have hx2 : xs.length = ss.length := by simpa using hx
      have hy2 : ys.length = ss.length := by simpa using hy
      by_cases hts : t ≤ s <;>
        simp [filterAligned, hts, ih xs ys hx2 hy2]

theorem filterAligned_eq_nil {α : Type} (t : ℚ) (ss : List ℚ) (xs : List α)
    (h : ∀ s ∈ ss, s < t) : filterAligned t ss xs = [] := by
  induction ss generalizing xs with
  | nil => cases xs <;> rfl
  | cons s ss ih =>
    cases xs with
    | nil => rfl
    | cons x xs =>
      have hst : ¬ t ≤ s := not_le.mpr (h s (List.mem_cons_self s ss))
      simp only [filterAligned, if_neg hst]
      exact ih xs fun a ha => h a (List.mem_cons_of_mem s ha)

/-! Helper lemmas for `to_image_coords`. -/

theorem to_image_coords_cons (b : Box) (bs : List Box) (height width : ℚ) :
    to_image_coords (b :: bs) height width =
      scaleBox height width b :: to_image_coords bs height width := rfl

theorem to_image_coords_eq_map (boxes : List Box) (height width : ℚ) :
    to_image_coords boxes height width = boxes.map (scaleBox height width) := by
  induction boxes with
  | nil => rfl
  | cons b bs ih => rw [to_image_coords_cons, ih, List.map_cons]

/-- C2: for every sequence of boxes and every geometry, `to_image_coords`
returns a new sequence of the same length in which component 0 (top) and
component 2 (bottom) of every box are multiplied by `height` and
component 1 (left) and component 3 (right) by `width`, with the component
order preserved and no axis swapped; in particular the box
(0.5, 0.25, 1.0, 0.75) with height 600 and width 1000 maps to
(300, 250, 600, 750).  The input is unmodified: the result is a fresh
list grown from `zeros_like boxes`. -/
theorem to_image_coords_componentwise :
    (∀ (boxes : List Box) (height width : ℚ),
        to_image_coords boxes height width = boxes.map (scaleBox height width) ∧
        (to_image_coords boxes height width).length = boxes.length) ∧
    to_image_coords [((1 : ℚ)/2, (1 : ℚ)/4, (1 : ℚ), (3 : ℚ)/4)] 600 1000 =
      [((300 : ℚ), (250 : ℚ), (600 : ℚ), (750 : ℚ))] := by
  refine ⟨fun boxes height width => ⟨to_image_coords_eq_map boxes height width, ?_⟩, ?_⟩
  · rw [to_image_coords_eq_map, List.length_map]
  · rw [to_image_coords_eq_map]
    simp only [List.map_cons, List.map_nil, scaleBox, List.cons.injEq, Prod.mk.injEq,
      and_true]
    norm_num

/-- C8: round-trip law.  For boxes with all coordinates in [0, 1] and a
geometry with positive height and width, dividing each component of
`to_image_coords boxes height width` by (height, width, height, width)
reproduces the original boxes exactly over the rationals. -/
theorem to_image_coords_round_trip (boxes : List Box) (height width : ℚ)
    (hbox : ∀ b ∈ boxes, boxInRange b) (hh : 0 < height) (hw : 0 < width) :
    (to_image_coords boxes height width).map
        (fun b => (b.1 / height, b.2.1 / width, b.2.2.1 / height, b.2.2.2 / width)) =
      boxes := by
  rw [to_image_coords_eq_map, List.map_map]
  have h1 : ∀ b ∈ boxes,
      ((fun b : Box => (b.1 / height, b.2.1 / width, b.2.2.1 / height, b.2.2.2 / width)) ∘
        scaleBox height width) b = id b := by
    intro b _
    show (b.1 * height / height, b.2.1 * width / width,
      b.2.2.1 * height / height, b.2.2.2 * width / width) = b
    rw [mul_div_cancel_right₀ _ hh.ne', mul_div_cancel_right₀ _ hw.ne',
      mul_div_cancel_right₀ _ hh.ne', mul_div_cancel_right₀ _ hw.ne']
  rw [List.map_congr_left h1, List.map_id]

/-- Witness for C8 at the box (0.5, 0.25, 1.0, 0.75) with height 600 and
width 1000. -/
theorem to_image_coords_round_trip_witness :
    (∀ b ∈ [((1 : ℚ)/2, (1 : ℚ)/4, (1 : ℚ), (3 : ℚ)/4)], boxInRange b) ∧
    (0 : ℚ) < 600 ∧ (0 : ℚ) < 1000 ∧
    (to_image_coords [((1 : ℚ)/2, (1 : ℚ)/4, (1 : ℚ), (3 : ℚ)/4)] 600 1000).map
        (fun b => (b.1 / 600, b.2.1 / 1000, b.2.2.1 / 600, b.2.2.2 / 1000)) =
      [((1 : ℚ)/2, (1 : ℚ)/4, (1 : ℚ), (3 : ℚ)/4)] := by
  have hbox : ∀ b ∈ [((1 : ℚ)/2, (1 : ℚ)/4, (1 : ℚ), (3 : ℚ)/4)], boxInRange b := by
    intro b hb
    simp only [List.mem_singleton] at hb
    subst hb
    norm_num [boxInRange]
  exact ⟨hbox, by norm_num, by norm_num,
    to_image_coords_round_trip _ 600 1000 hbox (by norm_num) (by norm_num)⟩

/-- C1: on a batch satisfying the equal-length invariant and a threshold in
[0, 1], `filter_boxes` succeeds and returns, in the original relative
order, exactly the detections whose score meets `min_score` (inclusive
boundary): the retained triple, viewed as a list of detections, is the
stable `List.filter` of the zipped input detections, hence a sublist
(subsequence) of the input in input order, every retained detection has
score at least `min_score`, and every input detection with such a score
is retained.  The input lists are untouched; the result consists of
freshly built lists. -/
theorem filter_boxes_stable (t : ℚ) (bs : List Box) (ss cs : List ℚ)
    (hb : bs.length = ss.length) (hc : cs.length = ss.length)
    (ht0 : 0 ≤ t) (ht1 : t ≤ 1) :
    ∃ fb fs fc,
      filter_boxes t bs ss cs = some (fb, fs, fc) ∧
      zip3 fb fs fc = (zip3 bs ss cs).filter (fun d => decide (t ≤ d.2.1)) ∧
      List.Sublist (zip3 fb fs fc) (zip3 bs ss cs) ∧
      (∀ d ∈ zip3 fb fs fc, t ≤ d.2.1) ∧
      (∀ d ∈ zip3 bs ss cs, t ≤ d.2.1 → d ∈ zip3 fb fs fc) := by
  refine ⟨filterAligned t ss bs, filterAligned t ss ss, filterAligned t ss cs,
    filter_boxes_eq t bs ss cs hb hc, zip3_filterAligned t ss cs bs hb hc, ?_, ?_, ?_⟩
  · rw [zip3_filterAligned t ss cs bs hb hc]
    exact List.filter_sublist _
  · intro d hd
    rw [zip3_filterAligned t ss cs bs hb hc] at hd
    exact of_decide_eq_true (List.mem_filter.mp hd).2
  · intro d hd hscore
    rw [zip3_filterAligned t ss cs bs hb hc]
    exact List.mem_filter.mpr ⟨hd, decide_eq_true hscore⟩

/-- Witness for C1 on the batch with one box of score 0.9 at threshold 0.8:
the detection is retained unchanged. -/
theorem filter_boxes_stable_witness :
    ([((1:ℚ)/10, (1:ℚ)/10, (1:ℚ)/2, (1:ℚ)/2)].length = [((9:ℚ)/10)].length) ∧
    ([(3:ℚ)].length = [((9:ℚ)/10)].length) ∧
    (0 ≤ (4:ℚ)/5) ∧ ((4:ℚ)/5 ≤ 1) ∧
    (∃ fb fs fc,
      filter_boxes ((4:ℚ)/5) [((1:ℚ)/10, (1:ℚ)/10, (1:ℚ)/2, (1:ℚ)/2)]
          [((9:ℚ)/10)] [(3:ℚ)] = some (fb, fs, fc) ∧
      zip3 fb fs fc =
        (zip3 [((1:ℚ)/10, (1:ℚ)/10, (1:ℚ)/2, (1:ℚ)/2)] [((9:ℚ)/10)] [(3:ℚ)]).filter
          (fun d => decide ((4:ℚ)/5 ≤ d.2.1)) ∧
      List.Sublist (zip3 fb fs fc)
        (zip3 [((1:ℚ)/10, (1:ℚ)/10, (1:ℚ)/2, (1:ℚ)/2)] [((9:ℚ)/10)] [(3:ℚ)]) ∧
      (∀ d ∈ zip3 fb fs fc, (4:ℚ)/5 ≤ d.2.1) ∧
      (∀ d ∈ zip3 [((1:ℚ)/10, (1:ℚ)/10, (1:ℚ)/2, (1:ℚ)/2)] [((9:ℚ)/10)] [(3:ℚ)],
          (4:ℚ)/5 ≤ d.2.1 → d ∈ zip3 fb fs fc)) :=
  ⟨rfl, rfl, by norm_num, by norm_num,
    filter_boxes_stable ((4:ℚ)/5) _ _ _ rfl rfl (by norm_num) (by norm_num)⟩

/-- C7: on a batch satisfying the equal-length invariant and a threshold in
[0, 1], the batch returned by `filter_boxes` again satisfies the
invariant: its three lists all have one common length at most the input
length; and when no detection meets the threshold the result is the empty
batch of three aligned empty lists, not an error. -/
theorem filter_boxes_invariant (t : ℚ) (bs : List Box) (ss cs : List ℚ)
    (hb : bs.length = ss.length) (hc : cs.length = ss.length)
    (ht0 : 0 ≤ t) (ht1 : t ≤ 1) :
    ∃ fb fs fc,
      filter_boxes t bs ss cs = some (fb, fs, fc) ∧
      fb.length = fs.length ∧ fc.length = fs.length ∧ fs.length ≤ ss.length ∧
      ((∀ s ∈ ss, s < t) → fb = [] ∧ fs = [] ∧ fc = []) := by
  refine ⟨filterAligned t ss bs, filterAligned t ss ss, filterAligned t ss cs,
    filter_boxes_eq t bs ss cs hb hc,
    filterAligned_length_eq t ss bs ss hb rfl,
    filterAligned_length_eq t ss cs ss hc rfl,
    filterAligned_length_le t ss ss rfl, ?_⟩
  intro hnone
  exact ⟨filterAligned_eq_nil t ss bs hnone, filterAligned_eq_nil t ss ss hnone,
    filterAligned_eq_nil t ss cs hnone⟩

/-- Witness for C7 on the batch with one box of score 0.9 at threshold
0.95: the result is the empty aligned batch. -/
theorem filter_boxes_invariant_witness :
    ([((1:ℚ)/10, (1:ℚ)/10, (1:ℚ)/2, (1:ℚ)/2)].length = [((9:ℚ)/10)].length) ∧
    ([(3:ℚ)].length = [((9:ℚ)/10)].length) ∧
    (0 ≤ (19:ℚ)/20) ∧ ((19:ℚ)/20 ≤ 1) ∧
    (∃ fb fs fc,
      filter_boxes ((19:ℚ)/20) [((1:ℚ)/10, (1:ℚ)/10, (1:ℚ)/2, (1:ℚ)/2)]
          [((9:ℚ)/10)] [(3:ℚ)] = some (fb, fs, fc) ∧
      fb.length = fs.length ∧ fc.length = fs.length ∧
      fs.length ≤ [((9:ℚ)/10)].length ∧
      ((∀ s ∈ [((9:ℚ)/10)], s < (19:ℚ)/20) → fb = [] ∧ fs = [] ∧ fc = [])) :=
  ⟨rfl, rfl, by norm_num, by norm_num,
    filter_boxes_invariant ((19:ℚ)/20) _ _ _ rfl rfl (by norm_num) (by norm_num)⟩

/-- C3 counterexample: the claim says a call with `min_score` outside
[0, 1] fails with an InvalidInputError.  In the notebook neither
`filter_boxes` nor `to_image_coords` contains any validation or any
InvalidInputError: with the well-formed one-detection batch of score 0.9
and `min_score = 2`, `filter_boxes` succeeds and returns the empty batch
instead of failing. -/
theorem filter_boxes_no_validation :
    filter_boxes 2 [((1:ℚ)/10, (1:ℚ)/10, (1:ℚ)/2, (1:ℚ)/2)] [((9:ℚ)/10)] [(3:ℚ)] =
      some ([], [], []) ∧
    filter_boxes 2 [((1:ℚ)/10, (1:ℚ)/10, (1:ℚ)/2, (1:ℚ)/2)] [((9:ℚ)/10)] [(3:ℚ)] ≠
      none := by
  have h : ¬ ((2:ℚ) ≤ 9/10) := by norm_num
  have he := filter_boxes_eq 2 [((1:ℚ)/10, (1:ℚ)/10, (1:ℚ)/2, (1:ℚ)/2)]
    [((9:ℚ)/10)] [(3:ℚ)] rfl rfl
  rw [he]
  simp [filterAligned, h]

/-- C3 amended: `filter_boxes` and `to_image_coords` perform no input
validation at all; no InvalidInputError exists in the code.  On a batch
satisfying the equal-length invariant, `filter_boxes` succeeds for every
threshold, inside or outside [0, 1] (an out-of-range threshold is used as
an ordinary comparison bound); `to_image_coords` is total and never
fails.  A violated length invariant is not detected as such either:
`filter_boxes` merely walks the indices `range(len(classes))`, so it
fails with an IndexError (not an InvalidInputError) only when such an
index falls outside `scores` or `boxes`, and silently drops trailing
detections when `classes` is the shorter list. -/
theorem filter_boxes_succeeds_any_threshold (t : ℚ) (bs : List Box) (ss cs : List ℚ)
    (hb : bs.length = ss.length) (hc : cs.length = ss.length) :
    (filter_boxes t bs ss cs).isSome := by
  rw [filter_boxes_eq t bs ss cs hb hc]
  rfl

/-- Witness for the amended C3 at the out-of-range threshold 3/2 on a
two-detection batch. -/
theorem filter_boxes_succeeds_any_threshold_witness :
    ([((0:ℚ), 0, 1, 1), ((0:ℚ), 0, (1:ℚ)/2, 1)].length =
      [((9:ℚ)/10), (3:ℚ)/10].length) ∧
    ([(2:ℚ), (7:ℚ)].length = [((9:ℚ)/10), (3:ℚ)/10].length) ∧
    (filter_boxes ((3:ℚ)/2) [((0:ℚ), 0, 1, 1), ((0:ℚ), 0, (1:ℚ)/2, 1)]
        [((9:ℚ)/10), (3:ℚ)/10] [(2:ℚ), (7:ℚ)]).isSome :=
  ⟨rfl, rfl, filter_boxes_succeeds_any_threshold ((3:ℚ)/2) _ _ _ rfl rfl⟩

/-- C9 counterexample: for the pixel box (top, left, bottom, right) =
(0, 1, 2, 3) the claimed vertex order (left, top) -> (left, bottom) ->
(right, bottom) -> (right, top) -> (left, top) would be
[(1, 0), (1, 2), (3, 2), (3, 0), (1, 0)], but `draw_boxes` emits
[(1, 2), (1, 0), (3, 0), (3, 2), (1, 2)]: the code unpacks component 0
of the box into a variable named `bot` and component 2 into one named
`top`, so its polyline starts at (left, bottom). -/
theorem draw_box_points_not_claimed_order :
    draw_box_points ((0:ℚ), 1, 2, 3) = [((1:ℚ), 2), (1, 0), (3, 0), (3, 2), (1, 2)] ∧
    draw_box_points ((0:ℚ), 1, 2, 3) ≠ [((1:ℚ), 0), (1, 2), (3, 2), (3, 0), (1, 0)] := by
  refine ⟨rfl, ?_⟩
  norm_num [draw_box_points]

/-- C9 amended: for every pixel box (top, left, bottom, right),
`draw_boxes` emits the four-corner polyline with vertices in exactly the
order (left, bottom) -> (left, top) -> (right, top) -> (right, bottom) ->
(left, bottom); this closed cycle covers the same four rectangle edges as
the order the claim states, but starts at the opposite corner and runs in
the opposite direction, because the code names component 0 `bot` and
component 2 `top`. -/
theorem draw_box_points_order (top left bottom right : ℚ) :
    draw_box_points (top, left, bottom, right) =
      [(left, bottom), (left, top), (right, top), (right, bottom), (left, bottom)] := rfl

/-- C10: `draw_boxes` converts each class value to the color index with
Python `int()`, truncation toward zero: the color lookup at detection `i`
is the palette subscription at `pyInt classes[i]`, the non-integer class
value 3.9 truncates to the index 3, and the lookup for class value 3.9
selects the same color as the one for class 3 on every palette (no error
and no rounding to 4). -/
theorem draw_box_color_truncates :
    (∀ (palette : List ℕ) (classes : List ℚ) (i : ℕ),
        draw_box_color palette classes i =
          (classes[i]?).bind fun c => pyGet palette (pyInt c)) ∧
    pyInt ((39:ℚ)/10) = 3 ∧
    (∀ palette : List ℕ,
        draw_box_color palette [(39:ℚ)/10] 0 = draw_box_color palette [(3:ℚ)] 0) := by
  have h39 : pyInt ((39:ℚ)/10) = 3 := by
    rw [pyInt, if_pos (by norm_num : (0:ℚ) ≤ 39/10), Int.floor_eq_iff]
    constructor <;> norm_num
  have h3 : pyInt (3:ℚ) = 3 := by
    rw [pyInt, if_pos (by norm_num : (0:ℚ) ≤ 3)]
    simp
  refine ⟨fun palette classes i => rfl, h39, fun palette => ?_⟩
  show pyGet palette (pyInt ((39:ℚ)/10)) = pyGet palette (pyInt (3:ℚ))
  rw [h39, h3]

/-- C4 counterexample: with the one-color palette [7] and class id 1 (a
class id exceeding the palette length), the wrap the claim prescribes
would select index 1 % 1 = 0 and yield the color 7, but `draw_boxes`
subscripts the palette at the raw index 1 and fails with an IndexError:
no modulo wrap is performed and the lookup is not always in range. -/
theorem draw_box_color_no_wrap :
    draw_box_color [7] [(1:ℚ)] 0 = none ∧
    spec_color_select [7] 1 = some 7 ∧
    draw_box_color [7] [(1:ℚ)] 0 ≠ spec_color_select [7] 1 := by
  have h1 : pyInt (1:ℚ) = 1 := by
    rw [pyInt, if_pos (by norm_num : (0:ℚ) ≤ 1)]
    simp
  have he : draw_box_color [7] [(1:ℚ)] 0 = none := by
    show pyGet [7] (pyInt (1:ℚ)) = none
    rw [h1]
    rfl
  refine ⟨he, rfl, ?_⟩
  rw [he]
  decide

/-- C4 amended: `draw_boxes` performs no modulo wrap: the palette is
subscripted directly at the class id, so for a nonnegative integer class
id the lookup succeeds exactly when the class id is smaller than the
palette length, and every larger class id is an out-of-range IndexError
(in particular the lookup is not always in range on a non-empty
palette). -/
theorem draw_box_color_in_range_iff (palette : List ℕ) (class_id : ℕ) :
    (draw_box_color palette [(class_id : ℚ)] 0).isSome ↔ class_id < palette.length := by
  have hp : pyInt ((class_id : ℚ)) = (class_id : ℤ) := by
    rw [pyInt, if_pos (Nat.cast_nonneg class_id)]
    exact Int.floor_natCast class_id
  show (pyGet palette (pyInt ((class_id : ℚ)))).isSome ↔ _
  rw [hp, pyGet, if_pos (Nat.cast_nonneg class_id), Int.toNat_natCast,
    Option.isSome_iff_ne_none, ne_eq, List.getElem?_eq_none_iff, not_le]

/-- C5 counterexample: for kernel size 3, 32 input channels and 512 output
channels the counting cell does not report 147456 plus only a batch
normalization term: the vanilla total it prints is 148992, which differs
from the bias-free count under both batch-normalization conventions
(147456 + 2 * 512 = 148480 and 147456 + 4 * 512 = 149504), because
`tf.layers.conv2d` creates a bias of 512 parameters by default; likewise
the mobilenet total 18272 differs from 16672 plus the two
batch-normalization terms (17760 or 18848), and the printed reduction is
below 8.8, not approximately 8.85. -/
theorem param_count_includes_bias :
    total_vanilla_params 3 32 512 = 148992 ∧
    total_vanilla_params 3 32 512 ≠ 147456 + 2 * 512 ∧
    total_vanilla_params 3 32 512 ≠ 147456 + 4 * 512 ∧
    total_mobile_params 3 32 512 = 18272 ∧
    total_mobile_params 3 32 512 ≠ 16672 + 2 * 32 + 2 * 512 ∧
    total_mobile_params 3 32 512 ≠ 16672 + 4 * 32 + 4 * 512 ∧
    ¬ ((88:ℚ)/10 ≤ param_reduction 3 32 512) := by
  have hv : total_vanilla_params 3 32 512 = 148992 := by decide
  have hm : total_mobile_params 3 32 512 = 18272 := by decide
  refine ⟨hv, by decide, by decide, hm, by decide, by decide, ?_⟩
  rw [param_reduction, hv, hm]
  norm_num

/-- C5 amended: for kernel size 3, 32 input channels and 512 output
channels the cell counts 147456 convolution weights plus a 512-parameter
bias plus 1024 batch-normalization parameters (gamma and beta) for the
vanilla block, 148992 in total, and 288 depthwise weights + 64
batch-normalization parameters + 16384 pointwise weights + 512 bias +
1024 batch-normalization parameters for the separable block, 18272 in
total: bias parameters are counted in both blocks because
`tf.layers.conv2d` creates one by default, and the printed reduction is
148992 / 18272, between 8.1 and 8.2 (approximately 8.154). -/
theorem param_count_values :
    total_vanilla_params 3 32 512 = 147456 + 512 + 1024 ∧
    total_mobile_params 3 32 512 = 288 + 64 + 16384 + 512 + 1024 ∧
    (81:ℚ)/10 < param_reduction 3 32 512 ∧ param_reduction 3 32 512 < (82:ℚ)/10 := by
  have hv : total_vanilla_params 3 32 512 = 148992 := by decide
  have hm : total_mobile_params 3 32 512 = 18272 := by decide
  refine ⟨by decide, by decide, ?_, ?_⟩ <;>
    rw [param_reduction, hv, hm] <;> norm_num

/-- C6 counterexample: with the adversarial input of zero input channels
(kernel size 3, 512 output channels) the counting cell raises nothing and
computes right through: both totals evaluate, to 1536 each (only the
biases and batch-normalization parameters remain), the denominator of the
reduction is nonzero, and the printed reduction is 1.  The cell contains
no InvalidInputError and no division guard. -/
theorem param_count_zero_channels :
    total_vanilla_params 3 0 512 = 1536 ∧
    total_mobile_params 3 0 512 = 1536 ∧
    total_mobile_params 3 0 512 ≠ 0 ∧
    param_reduction 3 0 512 = 1 := by
  have hv : total_vanilla_params 3 0 512 = 1536 := by decide
  have hm : total_mobile_params 3 0 512 = 1536 := by decide
  refine ⟨hv, hm, by decide, ?_⟩
  rw [param_reduction, hv, hm]
  norm_num

/-- C6 amended: the cell validates nothing and guards nothing, but the
division it performs is safe for every input with a positive
output-channel count, zero input channels included: the mobilenet total
always keeps the pointwise bias and its batch-normalization parameters
(3 * output_channels) as summands, so the denominator is nonzero. -/
theorem total_mobile_params_ne_zero (kernel_size input_channels output_channels : ℕ)
    (hn : 0 < output_channels) :
    total_mobile_params kernel_size input_channels output_channels ≠ 0 := by
  simp only [total_mobile_params, mobilenet_conv_block_params, List.sum_cons,
    List.sum_nil]
  omega

/-- Witness for the amended C6 at kernel size 3, zero input channels and
512 output channels. -/
theorem total_mobile_params_ne_zero_witness :
    0 < 512 ∧ total_mobile_params 3 0 512 ≠ 0 :=
  ⟨by decide, total_mobile_params_ne_zero 3 0 512 (by decide)⟩
